import Mathlib

/-!
Verification of the order-signing core of the trading-agent toolkit.

The development embeds the signing subsystem of the repository
(`tools/sign_order.py`, `tools/place_order.py`, `tools/_config.py`) as
executable Lean definitions and proves the spec's claims about it.

Modelling conventions:
* Byte strings are `List Nat` with entries `< 256`; machine words are `Nat`
  with explicit `% 2 ^ w` where overflow matters.
* `keccak256` (the hash used by EIP-712 / EIP-191) is an external primitive,
  modelled as an abstract parameter `H : List Nat → Nat` whose 32-byte output
  is materialised with `toBe32`.  Collision-freeness, where a claim needs it,
  is an explicit hypothesis on the concrete inputs involved.
* secp256k1 signing/recovery (`eth_account`) is abstracted as a `Crypto`
  record; the ECDSA recovery equation is an explicit hypothesis.
* Python IEEE-754 doubles are modelled exactly as rationals: `roundToDouble`
  is binary64 round-to-nearest-even (normal range), `fmul` is float
  multiplication, `pyInt` is `int()` truncation toward zero.
-/

set_option maxRecDepth 100000

namespace TradingAgent

/-! ## Byte-string encoding primitives -/

/-- Big-endian byte string of width `w` for `n`: the low `w` bytes of `n`,
left-padded with zeros. -/
def beBytes : Nat → Nat → List Nat
  | 0, _ => []
  | w + 1, n => (n / 256 ^ w % 256) :: beBytes w n

/-- The 32-byte left-padded big-endian word used by the ABI `encode()` step of
structured-data hashing for atomic values (integers, bools, addresses). -/
def toBe32 (n : Nat) : List Nat := beBytes 32 n

/-- Big-endian value of a byte string. -/
def fromBe (l : List Nat) : Nat := l.foldl (fun a b => 256 * a + b) 0

/-- Concatenation of the 32-byte words of a list of atomic values:
the `encodeData` part of a struct hash. -/
def wordsConcat : List Nat → List Nat
  | [] => []
  | v :: vs => toBe32 v ++ wordsConcat vs

/-! ## Decimal representation (Python `str()` of a nonnegative integer) -/

/-- Fuel-indexed decimal digit list (most significant first); structural so the
kernel can evaluate it.  Adequate whenever `n < fuel`. -/
def decDigitsAux : Nat → Nat → List Nat
  | 0, _ => []
  | fuel + 1, n => if n < 10 then [n] else decDigitsAux fuel (n / 10) ++ [n % 10]

/-- Decimal digit list of `n`, most significant digit first. -/
def decDigits (n : Nat) : List Nat := decDigitsAux (n + 1) n

/-- Model of Python `str(n)` for a nonnegative integer `n`. -/
def decRepr (n : Nat) : String :=
  String.mk ((decDigits n).map (fun d => Char.ofNat (48 + d)))

/-! ## Byte view of strings

Python strings are encoded to bytes before hashing; for the ASCII data this
toolkit signs, the UTF-8 bytes are exactly the character codes. -/

/-- Byte string of a Lean `String` (character codes; UTF-8 for ASCII data). -/
def strBytes (s : String) : List Nat := s.data.map Char.toNat

/-! ## EIP-712 structured-data hashing

`sign_order.py` delegates to `eth_account.messages.encode_typed_data`; the
definitions below model that library's algorithm (the EIP-712 standard) for
the flat struct types used here, over the abstract hash `H`. -/

/-- `encodeType` of EIP-712: `Name(type1 name1,type2 name2,...)`, built from a
field list of `(name, solidity-type)` pairs. -/
def encodeTypeString (primary : String) (fields : List (String × String)) : String :=
  primary ++ "(" ++ String.intercalate "," (fields.map (fun f => f.2 ++ " " ++ f.1)) ++ ")"

/-- The `ORDER_TYPES` table of `sign_order.py`, in source order. -/
def ORDER_TYPES : List (String × String) :=
  [("trader", "address"), ("marketId", "uint64"), ("isBuy", "bool"), ("isYes", "bool"),
   ("price", "uint64"), ("amount", "uint128"), ("nonce", "uint64"), ("expiry", "uint64")]

/-- Domain field list implied by the four entries `build_eip712_domain` supplies
(eth_account includes exactly the present fields, in canonical order). -/
def EIP712_DOMAIN_FIELDS : List (String × String) :=
  [("name", "string"), ("version", "string"), ("chainId", "uint256"),
   ("verifyingContract", "address")]

/-- Resolved configuration values the signing domain reads (`cfg["CHAIN_ID"]`,
`cfg["EXCHANGE_ADDRESS"]`), with the address as its 160-bit numeric value. -/
structure Cfg where
  CHAIN_ID : Nat
  EXCHANGE_ADDRESS : Nat
deriving DecidableEq

/-- The `message_data` dict of `sign_order`: the signed Order record. -/
structure Order where
  trader : Nat
  marketId : Nat
  isBuy : Bool
  isYes : Bool
  price : Nat
  amount : Nat
  nonce : Nat
  expiry : Nat
deriving DecidableEq

/-- ABI value of a bool. -/
def boolVal (b : Bool) : Nat := if b then 1 else 0

/-- Atomic values of an Order's fields, in `ORDER_TYPES` order. -/
def Order.fieldVals (o : Order) : List Nat :=
  [o.trader, o.marketId, boolVal o.isBuy, boolVal o.isYes,
   o.price, o.amount, o.nonce, o.expiry]

/-- The EIP-712 domain dict returned by `build_eip712_domain`. -/
structure Eip712Domain where
  name : String
  version : String
  chainId : Nat
  verifyingContract : Nat
deriving DecidableEq

/-- `build_eip712_domain` of `sign_order.py`. -/
def build_eip712_domain (cfg : Cfg) : Eip712Domain :=
  { name := "BlackjackExchange", version := "1",
    chainId := cfg.CHAIN_ID, verifyingContract := cfg.EXCHANGE_ADDRESS }

/-- 32-byte `typeHash` of a struct type, as bytes. -/
def typeHashBytes (H : List Nat → Nat) (primary : String)
    (fields : List (String × String)) : List Nat :=
  toBe32 (H (strBytes (encodeTypeString primary fields)))

/-- Preimage of `hashStruct`: `typeHash ‖ encodeData(values)`. -/
def hashStructPre (H : List Nat → Nat) (primary : String)
    (fields : List (String × String)) (vals : List Nat) : List Nat :=
  typeHashBytes H primary fields ++ wordsConcat vals

/-- Preimage of the domain separator (string fields enter as their hash). -/
def domainSeparatorPre (H : List Nat → Nat) (d : Eip712Domain) : List Nat :=
  hashStructPre H "EIP712Domain" EIP712_DOMAIN_FIELDS
    [H (strBytes d.name), H (strBytes d.version), d.chainId, d.verifyingContract]

/-- `domainSeparator = hash(domainTypeHash ‖ hash(name) ‖ hash(version) ‖
encode(chainId) ‖ encode(verifyingContract))`. -/
def domainSeparator (H : List Nat → Nat) (d : Eip712Domain) : Nat :=
  H (domainSeparatorPre H d)

/-- Preimage of the Order struct hash. -/
def orderStructPre (H : List Nat → Nat) (o : Order) : List Nat :=
  hashStructPre H "Order" ORDER_TYPES o.fieldVals

/-- `structHash = hash(orderTypeHash ‖ encode(trader) ‖ ... ‖ encode(expiry))`. -/
def orderStructHash (H : List Nat → Nat) (o : Order) : Nat :=
  H (orderStructPre H o)

/-- Preimage of the final digest: `0x1901 ‖ domainSeparator ‖ structHash`. -/
def eip712DigestPre (H : List Nat → Nat) (cfg : Cfg) (o : Order) : List Nat :=
  0x19 :: 0x01 :: (toBe32 (domainSeparator H (build_eip712_domain cfg)) ++
    toBe32 (orderStructHash H o))

/-- The digest `encode_typed_data` produces and `account.sign_message` signs. -/
def eip712Digest (H : List Nat → Nat) (cfg : Cfg) (o : Order) : Nat :=
  H (eip712DigestPre H cfg o)

/-! ### Spec-side digest (refinement target for C1)

These definitions follow the spec's words (its literal type strings and its
explicit concatenation), to be compared with the source-derived ones above. -/

/-- The spec's literal Order type string. -/
def specOrderTypeString : String :=
  "Order(address trader,uint64 marketId,bool isBuy,bool isYes,uint64 price,uint128 amount,uint64 nonce,uint64 expiry)"

/-- The spec's literal domain type string. -/
def specDomainTypeString : String :=
  "EIP712Domain(string name,string version,uint256 chainId,address verifyingContract)"

/-- The spec's domain separator, written out field by field. -/
def specDomainSeparator (H : List Nat → Nat) (cfg : Cfg) : Nat :=
  H (toBe32 (H (strBytes specDomainTypeString)) ++
     toBe32 (H (strBytes "BlackjackExchange")) ++ toBe32 (H (strBytes "1")) ++
     toBe32 cfg.CHAIN_ID ++ toBe32 cfg.EXCHANGE_ADDRESS)

/-- The spec's Order struct hash, one 32-byte left-padded word per field,
in the spec's exact field order. -/
def specStructHash (H : List Nat → Nat) (o : Order) : Nat :=
  H (toBe32 (H (strBytes specOrderTypeString)) ++
     toBe32 o.trader ++ toBe32 o.marketId ++ toBe32 (boolVal o.isBuy) ++
     toBe32 (boolVal o.isYes) ++ toBe32 o.price ++ toBe32 o.amount ++
     toBe32 o.nonce ++ toBe32 o.expiry)

/-- The spec's digest: `hash(0x1901 ‖ domainSeparator ‖ structHash)`. -/
def specEip712Digest (H : List Nat → Nat) (cfg : Cfg) (o : Order) : Nat :=
  H (0x19 :: 0x01 :: (toBe32 (specDomainSeparator H cfg) ++ toBe32 (specStructHash H o)))

/-! ## Abstract signer (eth_account) and the signing tools -/

/-- Abstract secp256k1 signer/recoverer: `addrOfKey` is address derivation
(`Account.from_key(...).address`), `signDig key digest` a recoverable
signature, `recoverDig digest sig` address recovery. -/
structure Crypto where
  addrOfKey : Nat → Nat
  signDig : Nat → Nat → Nat
  recoverDig : Nat → Nat → Nat

/-- The dict `sign_order` returns: the canonical signed-order payload.
`amount` is serialised as a base-10 string (`str(amount_raw)`); the
signature value is abstract, its hex formatting is `hex_sig` below. -/
structure SignedOrderPayload where
  trader : Nat
  marketId : Nat
  isBuy : Bool
  isYes : Bool
  price : Nat
  amount : String
  nonce : Nat
  expiry : Nat
  signature : Nat
deriving DecidableEq

/-- `sign_order` of `sign_order.py`: builds the Order with `trader` set to the
account's address, signs its EIP-712 digest, and returns the payload. -/
def sign_order (H : List Nat → Nat) (C : Crypto) (cfg : Cfg) (key : Nat)
    (market_id : Nat) (is_buy is_yes : Bool)
    (price_bps amount_raw nonce expiry : Nat) : SignedOrderPayload :=
  let address := C.addrOfKey key
  let o : Order := ⟨address, market_id, is_buy, is_yes, price_bps, amount_raw, nonce, expiry⟩
  { trader := address, marketId := market_id, isBuy := is_buy, isYes := is_yes,
    price := price_bps, amount := decRepr amount_raw, nonce := nonce, expiry := expiry,
    signature := C.signDig key (eip712Digest H cfg o) }

/-! ## EIP-191 personal-message signing (cancel flow) -/

/-- The EIP-191 prefix used by `encode_defunct`. -/
def personalMessagePrefix : String := "\x19Ethereum Signed Message:\n"

/-- Preimage of the personal-message digest:
`"\x19Ethereum Signed Message:\n" ‖ decimalLength(message) ‖ message`. -/
def eip191Pre (msg : String) : List Nat :=
  strBytes personalMessagePrefix ++ strBytes (decRepr (strBytes msg).length) ++ strBytes msg

/-- The EIP-191 personal-message digest of `encode_defunct(text=message)`. -/
def eip191Digest (H : List Nat → Nat) (msg : String) : Nat := H (eip191Pre msg)

/-- The literal cancel-message template of `sign_cancel`. -/
def cancelMessage (order_id : String) (timestamp : Nat) : String :=
  "Cancel order " ++ order_id ++ "\nTimestamp: " ++ decRepr timestamp

/-- The dict `sign_cancel` returns. -/
structure SignedCancelPayload where
  orderId : String
  message : String
  timestamp : Nat
  signature : Nat
deriving DecidableEq

/-- `sign_cancel` of `sign_order.py`; `now_ms` is `int(time.time() * 1000)`. -/
def sign_cancel (H : List Nat → Nat) (C : Crypto) (key : Nat)
    (order_id : String) (now_ms : Nat) : SignedCancelPayload :=
  let timestamp := now_ms
  let message := cancelMessage order_id timestamp
  { orderId := order_id, message := message, timestamp := timestamp,
    signature := C.signDig key (eip191Digest H message) }

/-! ## Signature hex formatting (`_hex_sig`) -/

/-- Python-side input of `_hex_sig`: raw bytes or an already-formatted string
(Python strings modelled as `List Char`). -/
inductive SigInput where
  | bytes : List Nat → SigInput
  | str : List Char → SigInput

/-- Hex digit character (lowercase), as produced by Python `bytes.hex()`. -/
def hexDigitChar (d : Nat) : Char :=
  if d < 10 then Char.ofNat (48 + d) else Char.ofNat (87 + d)

/-- Python `bytes.hex()`: two lowercase hex digits per byte, no prefix. -/
def bytesHex (b : List Nat) : List Char :=
  b.foldr (fun n acc => hexDigitChar (n / 16 % 16) :: hexDigitChar (n % 16) :: acc) []

/-- Python `str.startswith`. -/
def pyStartsWith (s p : List Char) : Bool := p.isPrefixOf s

/-- `_hex_sig` of `sign_order.py`: ensure the signature has a `0x` prefix. -/
def hex_sig (sig : SigInput) : List Char :=
  let h := match sig with
    | .bytes b => bytesHex b
    | .str s => s
  if pyStartsWith h ['0', 'x'] then h else '0' :: 'x' :: h

/-! ## Python float model (IEEE-754 binary64 as exact fractions)

The tools parse `--price`/`--amount` with `type=float` and convert with
`int(x * 10000)` / `int(x * 10**6)`.  The model below is exact: a double is
the fraction it denotes, `roundToDouble` rounds an arbitrary fraction to the
nearest double (round-to-nearest, ties-to-even; normal range), `fmul` is
float multiplication, `pyInt` is `int()` truncation toward zero.

Fractions are kept unreduced (`Frac`), so every operation is gcd-free
structural arithmetic that the kernel evaluates directly.  All fractions
built here have a positive denominator, which the order predicates assume. -/

/-- An exact fraction `num / den`, not necessarily reduced; `den` positive by
construction throughout this development. -/
structure Frac where
  num : ℤ
  den : ℕ
deriving DecidableEq

/-- The fraction of an integer. -/
def Frac.ofInt (n : ℤ) : Frac := ⟨n, 1⟩

/-- Exact product. -/
def Frac.mul (a b : Frac) : Frac := ⟨a.num * b.num, a.den * b.den⟩

/-- Negation. -/
def Frac.neg (a : Frac) : Frac := ⟨-a.num, a.den⟩

/-- `a < b` for positive denominators (cross multiplication). -/
def Frac.blt (a b : Frac) : Bool := a.num * b.den < b.num * a.den

/-- `a ≤ b` for positive denominators. -/
def Frac.ble (a b : Frac) : Bool := a.num * b.den ≤ b.num * a.den

/-- `⌊a⌋` for a positive denominator (floor division). -/
def Frac.floor (q : Frac) : ℤ := Int.fdiv q.num q.den

/-- Exact multiplication by `2 ^ k`. -/
def Frac.mulPow2 (q : Frac) (k : ℤ) : Frac :=
  if 0 ≤ k then ⟨q.num * Int.ofNat (2 ^ k.toNat), q.den⟩
  else ⟨q.num, q.den * 2 ^ (-k).toNat⟩

/-- Round a fraction to the nearest integer, ties to even. -/
def rndNE (q : Frac) : ℤ :=
  let f := q.floor
  let r := q.num - f * q.den
  if 2 * r < (q.den : ℤ) then f
  else if (q.den : ℤ) < 2 * r then f + 1
  else if f % 2 = 0 then f else f + 1

/-- Fuel-indexed `⌊log₂ q⌋` for a positive fraction (structural recursion so
the kernel can evaluate it; fuel 4096 covers all magnitudes arising here). -/
def floorLog2Aux : Nat → Frac → ℤ
  | 0, _ => 0
  | fuel + 1, q =>
    if q.num < (q.den : ℤ) then floorLog2Aux fuel ⟨2 * q.num, q.den⟩ - 1
    else if q.num < 2 * (q.den : ℤ) then 0
    else floorLog2Aux fuel ⟨q.num, 2 * q.den⟩ + 1

/-- `⌊log₂ q⌋` for a positive fraction. -/
def floorLog2 (q : Frac) : ℤ := floorLog2Aux 4096 q

/-- Nearest binary64 double to a positive fraction (53-bit significand; normal
range — subnormals and overflow do not arise for the magnitudes used here). -/
def roundToDoublePos (q : Frac) : Frac :=
  let e := floorLog2 q
  Frac.mulPow2 (Frac.ofInt (rndNE (q.mulPow2 (52 - e)))) (e - 52)

/-- Nearest binary64 double to a fraction, all signs. -/
def roundToDouble (q : Frac) : Frac :=
  if q.num = 0 then ⟨0, 1⟩
  else if 0 < q.num then roundToDoublePos q
  else Frac.neg (roundToDoublePos ⟨-q.num, q.den⟩)

/-- Binary64 multiplication: exact product, rounded to the nearest double. -/
def fmul (a b : Frac) : Frac := roundToDouble (a.mul b)

/-- Python `int()` on a float: truncation toward zero. -/
def pyInt (q : Frac) : ℤ :=
  if 0 ≤ q.num then q.floor else -Frac.floor ⟨-q.num, q.den⟩

/-- The price conversion both tools perform before signing:
`price_bps = int(price * PRICE_PRECISION)` on the parsed double. -/
def priceToBpsCode (priceDouble : Frac) : ℤ := pyInt (fmul priceDouble (Frac.ofInt 10000))

/-- The amount conversion: `amount_raw = int(amount * 10 ** USDC_DECIMALS)`. -/
def amountToRawCode (amountDouble : Frac) : ℤ := pyInt (fmul amountDouble (Frac.ofInt 1000000))

/-- The spec's exact-decimal conversion: `p * 10000` rounded to the nearest
integer in exact arithmetic (ties to even, as Python's `round`). -/
def specPriceToBps (p : Frac) : ℤ := rndNE (p.mul (Frac.ofInt 10000))

/-! ## Configuration loading (`_config.py`) and the tool entry points

Only the behaviour the claims depend on is modelled: the cascading lookup,
the `int()` conversion of `CHAIN_ID` (which raises `ValueError` on a
non-numeric value), `require_private_key`, and `error_exit`'s structured
`{"success": false, "error": msg}` + exit 1 shape, distinguished from an
uncaught Python exception. -/

/-- Python `int(str)` on a decimal string: optional sign, then one or more
digits; anything else raises `ValueError` (`none`). -/
def pyIntParse (s : String) : Option Int :=
  let digitsVal : List Char → Option Nat := fun cs =>
    if cs ≠ [] ∧ cs.all (fun c => 48 ≤ c.toNat ∧ c.toNat ≤ 57) then
      some (cs.foldl (fun a c => 10 * a + (c.toNat - 48)) 0)
    else none
  match s.data with
  | '-' :: rest => (digitsVal rest).map (fun n => -(n : Int))
  | '+' :: rest => (digitsVal rest).map (fun n => (n : Int))
  | cs => (digitsVal cs).map (fun n => (n : Int))

/-- The `get` cascade of `load_config`:
`env > agent.env > config.json > exchange API > network preset > default`. -/
def cfgGet (env agentEnv fileCfg remoteCfg preset : String → Option String)
    (key : String) (default : String) : String :=
  (env key).getD ((agentEnv key).getD ((fileCfg key).getD
    ((remoteCfg key).getD ((preset key).getD default))))

/-- The subset of the resolved config the signing tools read. -/
structure LoadedCfg where
  PRIVATE_KEY : String
  CHAIN_ID : Int
  EXCHANGE_ADDRESS : String
deriving DecidableEq

/-- `load_config` (the fields the signing tools read).  The conversion
`int(get("CHAIN_ID"))` raises an uncaught `ValueError` when the resolved
string is not a decimal integer — that is the `.error` branch. -/
def load_config (env agentEnv fileCfg remoteCfg preset : String → Option String) :
    Except String LoadedCfg :=
  match pyIntParse (cfgGet env agentEnv fileCfg remoteCfg preset "CHAIN_ID" "") with
  | none => .error "ValueError: invalid literal for int() with base 10"
  | some cid =>
    .ok { PRIVATE_KEY := cfgGet env agentEnv fileCfg remoteCfg preset "PRIVATE_KEY" "",
          CHAIN_ID := cid,
          EXCHANGE_ADDRESS := cfgGet env agentEnv fileCfg remoteCfg preset "EXCHANGE_ADDRESS" "" }

/-- `require_private_key`: structured error when the key is empty/unset. -/
def require_private_key (cfg : LoadedCfg) : Except String String :=
  if cfg.PRIVATE_KEY = "" then
    .error "PRIVATE_KEY not set. Export it or add to config.json"
  else .ok cfg.PRIVATE_KEY

/-- Hex value of an address string such as `0xC628...` (non-hex characters
contribute nothing; enough for the well-formed addresses used here). -/
def hexStrVal (s : String) : Nat :=
  let core := match s.data with
    | '0' :: 'x' :: rest => rest
    | cs => cs
  core.foldl (fun a c =>
    if 48 ≤ c.toNat ∧ c.toNat ≤ 57 then 16 * a + (c.toNat - 48)
    else if 97 ≤ c.toNat ∧ c.toNat ≤ 102 then 16 * a + (c.toNat - 87)
    else if 65 ≤ c.toNat ∧ c.toNat ≤ 70 then 16 * a + (c.toNat - 55)
    else a) 0

/-- Outcome of one tool invocation: a success payload on stdout (exit 0), a
structured `{"success": false, "error": msg}` on stdout with exit 1, or an
uncaught Python exception (raw traceback, no JSON). -/
inductive RunResult where
  | success : SignedOrderPayload → RunResult
  | jsonError : String → RunResult
  | rawCrash : String → RunResult
deriving DecidableEq

/-- Python `x or default` for an optional integer argument: `None` and `0`
are both falsy, so either selects the default. -/
def resolveOr (a : Option Int) (d : Int) : Int :=
  match a with
  | none => d
  | some n => if n = 0 then d else n

/-- Arguments of `sign_order.py` (order branch) after argparse; `price` and
`amount` carry the exact value of the parsed double. -/
structure SignArgs where
  market_id : Option Int
  side : Option String
  outcome : Option String
  price : Option Frac
  amount : Option Frac
  nonce : Option Int
  expiry : Option Int

/-- The bounds validation `encode_typed_data` performs (via `eth_abi`) on each
atomic value against its declared solidity type: a negative or over-width
value for `uint64 marketId/price/nonce/expiry` or `uint128 amount` raises
`ValueOutOfBounds`, an uncaught crash, before any signature is produced. -/
def encodeBoundsOk (market_id price_bps amount_raw nonce expiry : Int) : Bool :=
  decide (0 ≤ market_id ∧ market_id < 2 ^ 64 ∧ 0 ≤ price_bps ∧ price_bps < 2 ^ 64 ∧
    0 ≤ amount_raw ∧ amount_raw < 2 ^ 128 ∧ 0 ≤ nonce ∧ nonce < 2 ^ 64 ∧
    0 ≤ expiry ∧ expiry < 2 ^ 64)

/-- `main()` of `sign_order.py`, `--type order` branch.  `fromKey` models
`Account.from_key` (`none` = raises on malformed key material).  Converted
values outside their declared uint ranges raise `eth_abi`'s
`ValueOutOfBounds` inside `encode_typed_data` — the bounds guard before the
success branch; when the guard passes, the `Int.toNat` conversions are
exact. -/
def sign_order_main (H : List Nat → Nat) (C : Crypto) (fromKey : String → Option Nat)
    (env agentEnv fileCfg remoteCfg preset : String → Option String)
    (args : SignArgs) (now_ms now_s : Nat) : RunResult :=
  match load_config env agentEnv fileCfg remoteCfg preset with
  | .error e => .rawCrash e
  | .ok cfg =>
    match require_private_key cfg with
    | .error e => .jsonError e
    | .ok pk =>
      match fromKey pk with
      | none => .rawCrash "ValueError: invalid private key"
      | some key =>
        if args.market_id.isNone || args.side.isNone || args.outcome.isNone ||
            args.price.isNone || args.amount.isNone then
          .jsonError "Order signing requires: --market-id, --side, --outcome, --price, --amount"
        else
          let price_bps := priceToBpsCode (args.price.getD (Frac.ofInt 0))
          let amount_raw := amountToRawCode (args.amount.getD (Frac.ofInt 0))
          let nonce := resolveOr args.nonce now_ms
          let expiry := resolveOr args.expiry ((now_s : Int) + 3600)
          if encodeBoundsOk (args.market_id.getD 0) price_bps amount_raw nonce expiry then
            .success (sign_order H C ⟨cfg.CHAIN_ID.toNat, hexStrVal cfg.EXCHANGE_ADDRESS⟩ key
              (args.market_id.getD 0).toNat (args.side = some "buy") (args.outcome = some "yes")
              price_bps.toNat amount_raw.toNat nonce.toNat expiry.toNat)
          else .rawCrash "eth_abi.exceptions.ValueOutOfBounds"

/-- Arguments of `place_order.py` (all of these are `required=True`). -/
structure PlaceArgs where
  market_id : Int
  side : String
  outcome : String
  price : Frac
  amount : Frac
  nonce : Option Int
  expiry : Option Int

/-- `main()` of `place_order.py` up to the signed order (the HTTP submission
is out of scope).  Note the price range check — and the absence of any
amount check; converted values outside their declared uint ranges raise
`ValueOutOfBounds` in the encoder, as in `sign_order_main`. -/
def place_order_main (H : List Nat → Nat) (C : Crypto) (fromKey : String → Option Nat)
    (env agentEnv fileCfg remoteCfg preset : String → Option String)
    (args : PlaceArgs) (now_ms now_s : Nat) : RunResult :=
  match load_config env agentEnv fileCfg remoteCfg preset with
  | .error e => .rawCrash e
  | .ok cfg =>
    match require_private_key cfg with
    | .error e => .jsonError e
    | .ok pk =>
      match fromKey pk with
      | none => .rawCrash "ValueError: invalid private key"
      | some key =>
        if args.price.ble (Frac.ofInt 0) || (Frac.ofInt 1).ble args.price then
          .jsonError "Price must be between 0 and 1 (exclusive)"
        else
          let price_bps := priceToBpsCode args.price
          let amount_raw := amountToRawCode args.amount
          let nonce := resolveOr args.nonce now_ms
          let expiry := resolveOr args.expiry ((now_s : Int) + 3600)
          if encodeBoundsOk args.market_id price_bps amount_raw nonce expiry then
            .success (sign_order H C ⟨cfg.CHAIN_ID.toNat, hexStrVal cfg.EXCHANGE_ADDRESS⟩ key
              args.market_id.toNat (args.side = "buy") (args.outcome = "yes")
              price_bps.toNat amount_raw.toNat nonce.toNat expiry.toNat)
          else .rawCrash "eth_abi.exceptions.ValueOutOfBounds"

/-- Whether a run produced a signed order. -/
def RunResult.isSignedSuccess : RunResult → Bool
  | .success _ => true
  | _ => false

/-- The nonce of the signed order of a successful run (0 otherwise). -/
def RunResult.nonceOf : RunResult → Nat
  | .success p => p.nonce
  | _ => 0

/-- The expiry of the signed order of a successful run (0 otherwise). -/
def RunResult.expiryOf : RunResult → Nat
  | .success p => p.expiry
  | _ => 0

/-! ## Field ranges and single-field mutation (for C8) -/

/-- Range constraints of the Order fields per their declared solidity types
(`address` 160 bits, `uint64`, `uint128`). -/
def Order.wf (o : Order) : Prop :=
  o.trader < 2 ^ 160 ∧ o.marketId < 2 ^ 64 ∧ o.price < 2 ^ 64 ∧
  o.amount < 2 ^ 128 ∧ o.nonce < 2 ^ 64 ∧ o.expiry < 2 ^ 64

instance (o : Order) : Decidable o.wf := by
  unfold Order.wf; infer_instance

/-- `o'` is `o` with exactly one field replaced by a different value. -/
def OneFieldMutation (o o' : Order) : Prop :=
  (∃ v, v ≠ o.trader ∧ o' = { o with trader := v }) ∨
  (∃ v, v ≠ o.marketId ∧ o' = { o with marketId := v }) ∨
  (∃ b, b ≠ o.isBuy ∧ o' = { o with isBuy := b }) ∨
  (∃ b, b ≠ o.isYes ∧ o' = { o with isYes := b }) ∨
  (∃ v, v ≠ o.price ∧ o' = { o with price := v }) ∨
  (∃ v, v ≠ o.amount ∧ o' = { o with amount := v }) ∨
  (∃ v, v ≠ o.nonce ∧ o' = { o with nonce := v }) ∨
  (∃ v, v ≠ o.expiry ∧ o' = { o with expiry := v })

/-! ## Concrete instantiations used by the witnesses

A toy hash and signer satisfying, at the concrete inputs involved, the
hypotheses the claim theorems place on the abstract primitives. -/

/-- An injective encoding of byte strings into `Nat` (witness for hypotheses
of the form `Function.Injective H`). -/
def pairEnc (l : List Nat) : Nat := Nat.pair l.length (l.foldr Nat.pair 0)

/-- A trivially cheap hash for runs whose result does not depend on `H`. -/
def H0 : List Nat → Nat := fun _ => 0

/-- A toy signer: the address of a key is the key, a signature is the signing
key, recovery returns the signature; it satisfies the recovery equation. -/
def C0 : Crypto := ⟨fun k => k, fun k _ => k, fun _ s => s⟩

/-- A toy `Account.from_key`: accepts any nonempty key string. -/
def fk0 : String → Option Nat := fun s => if s = "" then none else some 1

/-- An empty configuration source. -/
def env0 : String → Option String := fun _ => none

/-- An environment in which `CHAIN_ID` is set to the empty string. -/
def envBad : String → Option String := fun k => if k = "CHAIN_ID" then some "" else none

/-- A network-preset source with the testnet values of `_config.py`. -/
def preset0 : String → Option String := fun k =>
  if k = "CHAIN_ID" then some "10143"
  else if k = "EXCHANGE_ADDRESS" then some "0xC628e81B506b572391669339c2AbaCFafa0d95dD"
  else if k = "PRIVATE_KEY" then some "0xabc" else none

/-- A preset source that resolves everything but the private key. -/
def presetNoPk : String → Option String := fun k =>
  if k = "CHAIN_ID" then some "10143"
  else if k = "EXCHANGE_ADDRESS" then some "0xC628e81B506b572391669339c2AbaCFafa0d95dD"
  else none

/-- Complete order-signing arguments with price 0 (out of range). -/
def argsPrice0 : SignArgs :=
  ⟨some 1, some "buy", some "yes", some ⟨0, 1⟩, some ⟨5, 1⟩, none, none⟩

/-- Complete order-signing arguments with an explicit `--nonce 0`. -/
def argsNonce0 : SignArgs :=
  ⟨some 1, some "buy", some "yes", some ⟨1, 2⟩, some ⟨5, 1⟩, some 0, none⟩

/-- Order-signing arguments with `--price` missing. -/
def argsNoPrice : SignArgs :=
  ⟨some 1, some "buy", some "yes", none, some ⟨5, 1⟩, none, none⟩

/-- Complete place-order arguments with a valid price and amount 0. -/
def pargsAmount0 : PlaceArgs := ⟨1, "buy", "yes", ⟨1, 2⟩, ⟨0, 1⟩, none, none⟩

/-- Complete place-order arguments with price 0. -/
def pargsPrice0 : PlaceArgs := ⟨1, "buy", "yes", ⟨0, 1⟩, ⟨5, 1⟩, none, none⟩

/-- The resolved configuration the fixtures above produce. -/
def cfg0 : LoadedCfg :=
  ⟨"0xabc", 10143, "0xC628e81B506b572391669339c2AbaCFafa0d95dD"⟩

/-- Reference order for the C8 witness. -/
def c8o1 : Order := ⟨7, 1, true, true, 5500, 10000000, 1700000000000, 1700003600⟩

/-- The reference order with only its price changed. -/
def c8o2 : Order := { c8o1 with price := 5501 }

/-- Domain configuration for the C8 witness. -/
def c8cfg : Cfg := ⟨10143, 0xC628e81B506b572391669339c2AbaCFafa0d95dD⟩

/-- Struct-hash preimage of `c8o1` under the witness hash below. -/
def c8pre1 : List Nat :=
  toBe32 (fromBe (strBytes (encodeTypeString "Order" ORDER_TYPES)) % 7) ++
    wordsConcat c8o1.fieldVals

/-- Struct-hash preimage of `c8o2` under the witness hash below. -/
def c8pre2 : List Nat :=
  toBe32 (fromBe (strBytes (encodeTypeString "Order" ORDER_TYPES)) % 7) ++
    wordsConcat c8o2.fieldVals

/-- A concrete hash that is collision-free on the preimages the C8 witness
involves and keeps the two struct hashes below `2 ^ 256`. -/
def c8H : List Nat → Nat := fun l =>
  if l = c8pre1 then 1 else if l = c8pre2 then 2 else fromBe l % 7

/-! ## Lemmas about the primitives -/

@[simp] theorem beBytes_length (w n : Nat) : (beBytes w n).length = w := by
  induction w generalizing n with
  | zero => rfl
  | succ w ih => simp [beBytes, ih]

@[simp] theorem toBe32_length (n : Nat) : (toBe32 n).length = 32 :=
  beBytes_length 32 n

theorem foldl_beBytes (w : Nat) : ∀ n a : Nat,
    (beBytes w n).foldl (fun a b => 256 * a + b) a = a * 256 ^ w + n % 256 ^ w := by
  induction w with
  | zero => intro n a; simp [beBytes, Nat.mod_one]
  | succ w ih =>
    intro n a
    have h256 : n % 256 ^ (w + 1) = n % 256 ^ w + 256 ^ w * (n / 256 ^ w % 256) := by
      rw [pow_succ, Nat.mod_mul]
    simp only [beBytes, List.foldl_cons, ih, h256]
    ring

theorem fromBe_toBe32 (n : Nat) : fromBe (toBe32 n) = n % 2 ^ 256 := by
  have h : (256 : Nat) ^ 32 = 2 ^ 256 := by norm_num
  simpa [fromBe, toBe32, h] using foldl_beBytes 32 n 0

theorem toBe32_inj {m n : Nat} (hm : m < 2 ^ 256) (hn : n < 2 ^ 256)
    (h : toBe32 m = toBe32 n) : m = n := by
  have := congrArg fromBe h
  rwa [fromBe_toBe32, fromBe_toBe32, Nat.mod_eq_of_lt hm, Nat.mod_eq_of_lt hn] at this

theorem wordsConcat_inj : ∀ {l1 l2 : List Nat}, l1.length = l2.length →
    (∀ x ∈ l1, x < 2 ^ 256) → (∀ x ∈ l2, x < 2 ^ 256) →
    wordsConcat l1 = wordsConcat l2 → l1 = l2 := by
  intro l1
  induction l1 with
  | nil =>
    intro l2 hlen _ _ _
    exact (List.length_eq_zero.mp hlen.symm).symm
  | cons a as ih =>
    intro l2 hlen hb1 hb2 heq
    cases l2 with
    | nil => simp at hlen
    | cons b bs =>
      simp only [wordsConcat] at heq
      have hl : (toBe32 a).length = (toBe32 b).length := by simp
      obtain ⟨h1, h2⟩ := List.append_inj heq hl
      have ha : a < 2 ^ 256 := hb1 a (by simp)
      have hbv : b < 2 ^ 256 := hb2 b (by simp)
      have hab : a = b := toBe32_inj ha hbv h1
      have htail : as = bs := by
        refine ih ?_ (fun x hx => hb1 x (by simp [hx])) (fun x hx => hb2 x (by simp [hx])) h2
        simpa using hlen
      rw [hab, htail]

theorem decDigitsAux_val : ∀ fuel n : Nat, n < fuel →
    (decDigitsAux fuel n).foldl (fun a d => 10 * a + d) 0 = n := by
  intro fuel
  induction fuel with
  | zero => intro n h; omega
  | succ fuel ih =>
    intro n h
    by_cases h10 : n < 10
    · simp [decDigitsAux, h10]
    · have hdiv : n / 10 < n := Nat.div_lt_self (by omega) (by omega)
      have hfuel : n / 10 < fuel := by omega
      simp only [decDigitsAux, if_neg h10, List.foldl_append, ih _ hfuel]
      simp [Nat.div_add_mod]

theorem decDigits_val (n : Nat) :
    (decDigits n).foldl (fun a d => 10 * a + d) 0 = n :=
  decDigitsAux_val (n + 1) n (Nat.lt_succ_self n)

theorem decDigitsAux_lt : ∀ fuel n : Nat, n < fuel →
    ∀ d ∈ decDigitsAux fuel n, d < 10 := by
  intro fuel
  induction fuel with
  | zero => intro n h; omega
  | succ fuel ih =>
    intro n h d hd
    by_cases h10 : n < 10
    · simp [decDigitsAux, h10] at hd; omega
    · have hfuel : n / 10 < fuel := by
        have := Nat.div_lt_self (show 0 < n by omega) (show 1 < 10 by omega)
        omega
      simp only [decDigitsAux, if_neg h10, List.mem_append, List.mem_singleton] at hd
      rcases hd with hd | hd
      · exact ih _ hfuel d hd
      · omega

theorem decDigits_lt (n : Nat) : ∀ d ∈ decDigits n, d < 10 :=
  decDigitsAux_lt (n + 1) n (Nat.lt_succ_self n)

theorem decDigitsAux_ne_nil : ∀ fuel n : Nat, n < fuel → decDigitsAux fuel n ≠ [] := by
  intro fuel
  induction fuel with
  | zero => intro n h; omega
  | succ fuel _ =>
    intro n h
    by_cases h10 : n < 10
    · simp [decDigitsAux, h10]
    · simp [decDigitsAux, h10]

theorem decDigits_inj {m n : Nat} (h : decDigits m = decDigits n) : m = n := by
  have := congrArg (List.foldl (fun a d => 10 * a + d) 0) h
  rwa [decDigits_val, decDigits_val] at this

theorem decRepr_inj {m n : Nat} (h : decRepr m = decRepr n) : m = n := by
  have hdata : (decDigits m).map (fun d => Char.ofNat (48 + d))
      = (decDigits n).map (fun d => Char.ofNat (48 + d)) := by
    simpa [decRepr] using congrArg String.data h
  have hchar : ∀ d : Nat, d < 10 → (Char.ofNat (48 + d)).toNat = 48 + d := by decide
  have hnat : (decDigits m).map (fun d => 48 + d) = (decDigits n).map (fun d => 48 + d) := by
    have := congrArg (List.map Char.toNat) hdata
    rw [List.map_map, List.map_map] at this
    calc (decDigits m).map (fun d => 48 + d)
        = (decDigits m).map (Char.toNat ∘ fun d => Char.ofNat (48 + d)) :=
          (List.map_congr_left (fun d hd => (hchar d (decDigits_lt m d hd)).symm))
      _ = (decDigits n).map (Char.toNat ∘ fun d => Char.ofNat (48 + d)) := this
      _ = (decDigits n).map (fun d => 48 + d) :=
          List.map_congr_left (fun d hd => hchar d (decDigits_lt n d hd))
  have hdig : decDigits m = decDigits n := by
    have hadd : Function.Injective (fun d : Nat => 48 + d) := fun a b hab => by
      simpa using hab
    exact List.map_injective_iff.mpr hadd hnat
  exact decDigits_inj hdig

theorem char_toNat_inj : Function.Injective Char.toNat := by
  intro a b h
  exact Char.eq_of_val_eq (UInt32.eq_of_val_eq (Fin.eq_of_val_eq h))

theorem strBytes_inj : Function.Injective strBytes := by
  intro s t h
  have : s.data = t.data := List.map_injective_iff.mpr char_toNat_inj h
  cases s; cases t; exact congrArg String.mk this

@[simp] theorem strBytes_append (s t : String) :
    strBytes (s ++ t) = strBytes s ++ strBytes t := by
  simp [strBytes]

@[simp] theorem strBytes_length (s : String) : (strBytes s).length = s.data.length := by
  simp [strBytes]

/-! ## Lemmas about the EIP-712 encoding -/

theorem orderTypeString_eq :
    encodeTypeString "Order" ORDER_TYPES = specOrderTypeString := by decide

theorem domainTypeString_eq :
    encodeTypeString "EIP712Domain" EIP712_DOMAIN_FIELDS = specDomainTypeString := by decide

theorem eip712Digest_eq_spec (H : List Nat → Nat) (cfg : Cfg) (o : Order) :
    eip712Digest H cfg o = specEip712Digest H cfg o := by
  simp [eip712Digest, eip712DigestPre, specEip712Digest, domainSeparator,
    domainSeparatorPre, specDomainSeparator, orderStructHash, orderStructPre,
    specStructHash, hashStructPre, typeHashBytes, orderTypeString_eq,
    domainTypeString_eq, wordsConcat, Order.fieldVals, build_eip712_domain,
    List.append_assoc]

theorem boolVal_inj {a b : Bool} (h : boolVal a = boolVal b) : a = b := by
  cases a <;> cases b <;> simp_all [boolVal]

theorem Order.fieldVals_bound {o : Order} (hw : o.wf) : ∀ x ∈ o.fieldVals, x < 2 ^ 256 := by
  obtain ⟨h1, h2, h3, h4, h5, h6⟩ := hw
  have e160 : (2 : Nat) ^ 160 ≤ 2 ^ 256 := Nat.pow_le_pow_right (by omega) (by omega)
  have e64 : (2 : Nat) ^ 64 ≤ 2 ^ 256 := Nat.pow_le_pow_right (by omega) (by omega)
  have e128 : (2 : Nat) ^ 128 ≤ 2 ^ 256 := Nat.pow_le_pow_right (by omega) (by omega)
  have ebool : ∀ b : Bool, boolVal b < 2 ^ 256 := by
    intro b
    have h1 : boolVal b ≤ 1 := by cases b <;> simp [boolVal]
    have h2 : (1 : Nat) < 2 ^ 256 := Nat.one_lt_two_pow (by omega)
    omega
  intro x hx
  simp only [Order.fieldVals, List.mem_cons, List.not_mem_nil, or_false] at hx
  rcases hx with rfl | rfl | rfl | rfl | rfl | rfl | rfl | rfl
  · omega
  · omega
  · exact ebool _
  · exact ebool _
  · omega
  · omega
  · omega
  · omega

theorem orderStructPre_inj (H : List Nat → Nat) {o o' : Order}
    (hw : o.wf) (hw' : o'.wf)
    (h : orderStructPre H o = orderStructPre H o') : o = o' := by
  unfold orderStructPre hashStructPre at h
  have h2 : wordsConcat o.fieldVals = wordsConcat o'.fieldVals :=
    List.append_cancel_left h
  have h3 : o.fieldVals = o'.fieldVals :=
    wordsConcat_inj (by simp [Order.fieldVals])
      (Order.fieldVals_bound hw) (Order.fieldVals_bound hw') h2
  obtain ⟨t, m, b, y, p, a, n, e⟩ := o
  obtain ⟨t', m', b', y', p', a', n', e'⟩ := o'
  simp only [Order.fieldVals, List.cons.injEq, and_true] at h3
  obtain ⟨ht, hm, hb, hy, hp, ha, hn, he⟩ := h3
  rw [ht, hm, boolVal_inj hb, boolVal_inj hy, hp, ha, hn, he]

theorem OneFieldMutation.ne {o o' : Order} (h : OneFieldMutation o o') : o ≠ o' := by
  intro heq
  subst heq
  rcases h with ⟨v, hv, h⟩ | ⟨v, hv, h⟩ | ⟨v, hv, h⟩ | ⟨v, hv, h⟩ |
    ⟨v, hv, h⟩ | ⟨v, hv, h⟩ | ⟨v, hv, h⟩ | ⟨v, hv, h⟩
  · exact hv (congrArg Order.trader h).symm
  · exact hv (congrArg Order.marketId h).symm
  · exact hv (congrArg Order.isBuy h).symm
  · exact hv (congrArg Order.isYes h).symm
  · exact hv (congrArg Order.price h).symm
  · exact hv (congrArg Order.amount h).symm
  · exact hv (congrArg Order.nonce h).symm
  · exact hv (congrArg Order.expiry h).symm

/-! ## Claim theorems -/

/-- C1: every order signed by `sign_order` signs exactly the EIP-712 digest
`hash(0x1901 ‖ domainSeparator ‖ structHash)` with the domain
`{name: "BlackjackExchange", version: "1", chainId, verifyingContract}` from
the resolved config, the Order type string with exactly the declared fields in
the declared order, and every value encoded as a 32-byte left-padded word. -/
theorem C1_sign_order_digest_is_eip712 (H : List Nat → Nat) (C : Crypto) (cfg : Cfg)
    (key market_id : Nat) (is_buy is_yes : Bool)
    (price_bps amount_raw nonce expiry : Nat) :
    (sign_order H C cfg key market_id is_buy is_yes price_bps amount_raw nonce expiry).signature
      = C.signDig key (specEip712Digest H cfg
          ⟨C.addrOfKey key, market_id, is_buy, is_yes, price_bps, amount_raw, nonce, expiry⟩)
    ∧ (∀ o : Order, eip712Digest H cfg o = specEip712Digest H cfg o)
    ∧ encodeTypeString "Order" ORDER_TYPES = specOrderTypeString
    ∧ encodeTypeString "EIP712Domain" EIP712_DOMAIN_FIELDS = specDomainTypeString
    ∧ (∀ v : Nat, (toBe32 v).length = 32 ∧ fromBe (toBe32 v) = v % 2 ^ 256) := by
  refine ⟨?_, eip712Digest_eq_spec H cfg, orderTypeString_eq, domainTypeString_eq,
    fun v => ⟨toBe32_length v, fromBe_toBe32 v⟩⟩
  show C.signDig key (eip712Digest H cfg _) = _
  rw [eip712Digest_eq_spec]

/-- C2: for every payload produced by `sign_order`, recovering the signer from
the payload's signature and the EIP-712 digest of the payload's order yields
the payload's `trader` field, which is the address derived from the signing
key.  The ECDSA recovery equation of the external signer is the hypothesis. -/
theorem C2_recovered_signer_is_trader (H : List Nat → Nat) (C : Crypto)
    (hrec : ∀ k d, C.recoverDig d (C.signDig k d) = C.addrOfKey k)
    (cfg : Cfg) (key market_id : Nat) (is_buy is_yes : Bool)
    (price_bps amount_raw nonce expiry : Nat) :
    let p := sign_order H C cfg key market_id is_buy is_yes price_bps amount_raw nonce expiry
    C.recoverDig (eip712Digest H cfg
        ⟨p.trader, p.marketId, p.isBuy, p.isYes, p.price, amount_raw, p.nonce, p.expiry⟩)
      p.signature = p.trader
    ∧ p.trader = C.addrOfKey key ∧ p.amount = decRepr amount_raw := by
  exact ⟨hrec key _, rfl, rfl⟩

/-- Witness for C2 at a concrete key, order and toy signer. -/
theorem C2_witness :
    (∀ k d, C0.recoverDig d (C0.signDig k d) = C0.addrOfKey k) ∧
    (let p := sign_order H0 C0 ⟨10143, 55⟩ 7 1 true true 5500 10000000 1700000000000 1700003600
     C0.recoverDig (eip712Digest H0 ⟨10143, 55⟩
        ⟨p.trader, p.marketId, p.isBuy, p.isYes, p.price, 10000000, p.nonce, p.expiry⟩)
      p.signature = p.trader
     ∧ p.trader = C0.addrOfKey 7 ∧ p.amount = decRepr 10000000) :=
  ⟨fun _ _ => rfl,
   C2_recovered_signer_is_trader H0 C0 (fun _ _ => rfl) ⟨10143, 55⟩ 7 1 true true
     5500 10000000 1700000000000 1700003600⟩

/-- C3: the claim asserts the conversion before signing is exact rounding,
`p ↦ round(p * 10000)`.  The code computes `int(float(p) * 10000)` in binary
floating point and truncates: at `p = 0.0003` it yields 2 while exact rounding
yields 3 (the spec itself flags the float path as a latent bug).  The named
examples 0.55 ↦ 5500 and 0.0001 ↦ 1 do hold on the code. -/
theorem C3_float_truncation_misrounds :
    priceToBpsCode (roundToDouble ⟨3, 10000⟩) = 2
    ∧ specPriceToBps ⟨3, 10000⟩ = 3
    ∧ priceToBpsCode (roundToDouble ⟨55, 100⟩) = 5500
    ∧ priceToBpsCode (roundToDouble ⟨1, 10000⟩) = 1 := by
  refine ⟨by decide, by decide, by decide, by decide⟩

/-- C8: changing any single field of a fixed reference Order (with all fields
in their declared ranges) changes the struct-hash preimage, hence — for a hash
that is collision-free on the two struct-hash preimages and on the two digest
preimages, with 256-bit struct hashes — the struct hash and the digest. -/
theorem C8_single_field_change_changes_digest (H : List Nat → Nat) (cfg : Cfg)
    (o o' : Order) (hw : o.wf) (hw' : o'.wf) (hmut : OneFieldMutation o o')
    (hc1 : H (orderStructPre H o) = H (orderStructPre H o') →
      orderStructPre H o = orderStructPre H o')
    (hb : orderStructHash H o < 2 ^ 256) (hb' : orderStructHash H o' < 2 ^ 256)
    (hc2 : H (eip712DigestPre H cfg o) = H (eip712DigestPre H cfg o') →
      eip712DigestPre H cfg o = eip712DigestPre H cfg o') :
    orderStructHash H o ≠ orderStructHash H o'
    ∧ eip712Digest H cfg o ≠ eip712Digest H cfg o' := by
  have hne : o ≠ o' := OneFieldMutation.ne hmut
  have hpre : orderStructPre H o ≠ orderStructPre H o' := by
    intro h; exact hne (orderStructPre_inj H hw hw' h)
  have hsh : orderStructHash H o ≠ orderStructHash H o' := by
    intro h; exact hpre (hc1 h)
  refine ⟨hsh, fun h => ?_⟩
  have hdp := hc2 h
  unfold eip712DigestPre at hdp
  have h1 := List.tail_eq_of_cons_eq hdp
  have h2 := List.tail_eq_of_cons_eq h1
  have h3 : toBe32 (orderStructHash H o) = toBe32 (orderStructHash H o') :=
    List.append_cancel_left h2
  exact hsh (toBe32_inj hb hb' h3)

/-- Witness for C8: mutating the price of a reference order changes struct
hash and digest under a concrete collision-free-on-these-inputs hash. -/
theorem C8_witness :
    c8o1.wf ∧ c8o2.wf ∧ OneFieldMutation c8o1 c8o2
    ∧ (c8H (orderStructPre c8H c8o1) = c8H (orderStructPre c8H c8o2) →
        orderStructPre c8H c8o1 = orderStructPre c8H c8o2)
    ∧ orderStructHash c8H c8o1 < 2 ^ 256 ∧ orderStructHash c8H c8o2 < 2 ^ 256
    ∧ (c8H (eip712DigestPre c8H c8cfg c8o1) = c8H (eip712DigestPre c8H c8cfg c8o2) →
        eip712DigestPre c8H c8cfg c8o1 = eip712DigestPre c8H c8cfg c8o2)
    ∧ (orderStructHash c8H c8o1 ≠ orderStructHash c8H c8o2
       ∧ eip712Digest c8H c8cfg c8o1 ≠ eip712Digest c8H c8cfg c8o2) :=
  ⟨by decide, by decide,
   Or.inr (Or.inr (Or.inr (Or.inr (Or.inl ⟨5501, by decide, rfl⟩)))),
   by decide, by decide, by decide, by decide,
   C8_single_field_change_changes_digest c8H c8cfg c8o1 c8o2 (by decide) (by decide)
     (Or.inr (Or.inr (Or.inr (Or.inr (Or.inl ⟨5501, by decide, rfl⟩)))))
     (by decide) (by decide) (by decide) (by decide)⟩

/-- C10: `_hex_sig` always returns a string starting with `0x`, returns a
string already starting with `0x` unchanged, and is idempotent — so emitted
signature fields carry exactly one `0x` prefix. -/
theorem C10_hex_sig_prefix :
    (∀ sig : SigInput, pyStartsWith (hex_sig sig) ['0', 'x'] = true)
    ∧ (∀ s : List Char, pyStartsWith s ['0', 'x'] = true → hex_sig (.str s) = s)
    ∧ (∀ sig : SigInput, hex_sig (.str (hex_sig sig)) = hex_sig sig) := by
  have h1 : ∀ h : List Char, pyStartsWith ('0' :: 'x' :: h) ['0', 'x'] = true := by
    intro h
    simp [pyStartsWith, List.isPrefixOf]
  have hall : ∀ sig : SigInput, pyStartsWith (hex_sig sig) ['0', 'x'] = true := by
    intro sig
    cases sig with
    | bytes b =>
      simp only [hex_sig]
      split
      · assumption
      · exact h1 _
    | str s =>
      simp only [hex_sig]
      split
      · assumption
      · exact h1 _
  have hid : ∀ s : List Char, pyStartsWith s ['0', 'x'] = true → hex_sig (.str s) = s := by
    intro s hs
    simp [hex_sig, hs]
  exact ⟨hall, hid, fun sig => hid _ (hall sig)⟩

/-! ## Lemmas for the cancel flow (C7) -/

theorem string_ext {s t : String} (h : s.data = t.data) : s = t := by
  cases s; cases t; exact congrArg String.mk h

theorem decDigitsAux_len_pos : ∀ fuel n : Nat, n < fuel →
    0 < (decDigitsAux fuel n).length := by
  intro fuel
  induction fuel with
  | zero => intro n h; omega
  | succ fuel _ =>
    intro n _
    by_cases h10 : n < 10
    · simp [decDigitsAux, h10]
    · simp [decDigitsAux, h10, List.length_append]

theorem decDigitsAux_len_le : ∀ fuel m n : Nat, m ≤ n → m < fuel → n < fuel →
    (decDigitsAux fuel m).length ≤ (decDigitsAux fuel n).length := by
  intro fuel
  induction fuel with
  | zero => intro m n _ hm _; omega
  | succ fuel ih =>
    intro m n hmn hm hn
    by_cases hn10 : n < 10
    · have hm10 : m < 10 := by omega
      simp [decDigitsAux, hm10, hn10]
    · by_cases hm10 : m < 10
      · have hpos : 0 < (decDigitsAux fuel (n / 10)).length := by
          refine decDigitsAux_len_pos fuel (n / 10) ?_
          have := Nat.div_lt_self (show 0 < n by omega) (show 1 < 10 by omega)
          omega
        simp only [decDigitsAux, if_pos hm10, if_neg hn10, List.length_append,
          List.length_cons, List.length_nil]
        omega
      · have hd1 : m / 10 < fuel := by
          have := Nat.div_lt_self (show 0 < m by omega) (show 1 < 10 by omega)
          omega
        have hd2 : n / 10 < fuel := by
          have := Nat.div_lt_self (show 0 < n by omega) (show 1 < 10 by omega)
          omega
        have := ih (m / 10) (n / 10) (Nat.div_le_div_right hmn) hd1 hd2
        simp only [decDigitsAux, if_neg hm10, if_neg hn10, List.length_append,
          List.length_cons, List.length_nil]
        omega

theorem decDigitsAux_fuel_irrel : ∀ fuel1 fuel2 n : Nat, n < fuel1 → n < fuel2 →
    decDigitsAux fuel1 n = decDigitsAux fuel2 n := by
  intro fuel1
  induction fuel1 with
  | zero => intro fuel2 n h _; omega
  | succ f1 ih =>
    intro fuel2 n h1 h2
    cases fuel2 with
    | zero => omega
    | succ f2 =>
      by_cases h10 : n < 10
      · simp [decDigitsAux, h10]
      · have hd : n / 10 < n := Nat.div_lt_self (by omega) (by omega)
        simp only [decDigitsAux, if_neg h10]
        rw [ih f2 (n / 10) (by omega) (by omega)]

theorem decDigits_len_le {m n : Nat} (h : m ≤ n) :
    (decDigits m).length ≤ (decDigits n).length := by
  have hle := decDigitsAux_len_le (n + 1) m n h (by omega) (by omega)
  rw [decDigits, decDigits,
    decDigitsAux_fuel_irrel (m + 1) (n + 1) m (by omega) (by omega)]
  exact hle

theorem decRepr_data_length (n : Nat) :
    (decRepr n).data.length = (decDigits n).length := by
  simp [decRepr]

theorem eip191Pre_inj {m1 m2 : String} (h : eip191Pre m1 = eip191Pre m2) :
    m1 = m2 := by
  have hL : m1.data.length = m2.data.length := by
    by_contra hne
    have hlen := congrArg List.length h
    simp only [eip191Pre, List.length_append, strBytes_length,
      decRepr_data_length] at hlen
    rcases Nat.lt_or_ge m1.data.length m2.data.length with hlt | hge
    · have := decDigits_len_le (Nat.le_of_lt hlt)
      omega
    · have hgt : m2.data.length < m1.data.length := by omega
      have := decDigits_len_le (Nat.le_of_lt hgt)
      omega
  have hmid : strBytes (decRepr (strBytes m1).length)
      = strBytes (decRepr (strBytes m2).length) := by
    rw [strBytes_length, strBytes_length, hL]
  unfold eip191Pre at h
  rw [hmid] at h
  exact strBytes_inj (List.append_cancel_left h)

theorem strData_append (s t : String) : (s ++ t).data = s.data ++ t.data :=
  String.data_append s t

theorem cancelMessage_inj_id {id1 id2 : String} {ts : Nat}
    (h : cancelMessage id1 ts = cancelMessage id2 ts) : id1 = id2 := by
  unfold cancelMessage at h
  have hd := congrArg String.data h
  simp only [strData_append] at hd
  exact string_ext
    (List.append_cancel_left (List.append_cancel_right (List.append_cancel_right hd)))

theorem cancelMessage_inj_ts {id : String} {ts1 ts2 : Nat}
    (h : cancelMessage id ts1 = cancelMessage id ts2) : ts1 = ts2 := by
  unfold cancelMessage at h
  have hd := congrArg String.data h
  simp only [strData_append] at hd
  exact decRepr_inj (string_ext (List.append_cancel_left hd))

theorem foldr_pair_inj : ∀ {l1 l2 : List Nat}, l1.length = l2.length →
    l1.foldr Nat.pair 0 = l2.foldr Nat.pair 0 → l1 = l2 := by
  intro l1
  induction l1 with
  | nil =>
    intro l2 h _
    exact (List.length_eq_zero.mp h.symm).symm
  | cons a as ih =>
    intro l2 hlen hf
    cases l2 with
    | nil => simp at hlen
    | cons b bs =>
      simp only [List.foldr_cons] at hf
      obtain ⟨h1, h2⟩ := Nat.pair_eq_pair.mp hf
      rw [h1, ih (by simpa using hlen) h2]

theorem pairEnc_injective : Function.Injective pairEnc := by
  intro l1 l2 h
  unfold pairEnc at h
  obtain ⟨hlen, hf⟩ := Nat.pair_eq_pair.mp h
  exact foldr_pair_inj hlen hf

/-- C7: the signed cancel payload's message is exactly the literal template
`Cancel order {orderId}\nTimestamp: {timestamp}`, the signed digest is the
EIP-191 personal-message digest of that message, and — the message being a
pure function of `(orderId, timestamp)` — changing either input changes the
message and (for an injective hash) the signed digest. -/
theorem C7_cancel_template_and_digest (H : List Nat → Nat) (C : Crypto) (key : Nat)
    (order_id : String) (now_ms : Nat) (hinj : Function.Injective H) :
    let p := sign_cancel H C key order_id now_ms
    p.message = "Cancel order " ++ order_id ++ "\nTimestamp: " ++ decRepr now_ms
    ∧ p.timestamp = now_ms
    ∧ p.signature = C.signDig key (H (strBytes personalMessagePrefix ++
        strBytes (decRepr (strBytes p.message).length) ++ strBytes p.message))
    ∧ (∀ id', id' ≠ order_id →
        cancelMessage id' now_ms ≠ cancelMessage order_id now_ms
        ∧ eip191Digest H (cancelMessage id' now_ms)
          ≠ eip191Digest H (cancelMessage order_id now_ms))
    ∧ (∀ ts', ts' ≠ now_ms →
        cancelMessage order_id ts' ≠ cancelMessage order_id now_ms
        ∧ eip191Digest H (cancelMessage order_id ts')
          ≠ eip191Digest H (cancelMessage order_id now_ms)) := by
  refine ⟨rfl, rfl, rfl, ?_, ?_⟩
  · intro id' hne
    have hm : cancelMessage id' now_ms ≠ cancelMessage order_id now_ms :=
      fun hme => hne (cancelMessage_inj_id hme)
    exact ⟨hm, fun hdig => hm (eip191Pre_inj (hinj hdig))⟩
  · intro ts' hne
    have hm : cancelMessage order_id ts' ≠ cancelMessage order_id now_ms :=
      fun hme => hne (cancelMessage_inj_ts hme)
    exact ⟨hm, fun hdig => hm (eip191Pre_inj (hinj hdig))⟩

/-- Witness for C7 at a concrete order id, timestamp and injective hash. -/
theorem C7_witness :
    Function.Injective pairEnc
    ∧ (let p := sign_cancel pairEnc C0 7 "ord-42" 1700000000000
       p.message = "Cancel order " ++ "ord-42" ++ "\nTimestamp: " ++ decRepr 1700000000000
       ∧ p.timestamp = 1700000000000
       ∧ p.signature = C0.signDig 7 (pairEnc (strBytes personalMessagePrefix ++
           strBytes (decRepr (strBytes p.message).length) ++ strBytes p.message))
       ∧ (∀ id', id' ≠ "ord-42" →
           cancelMessage id' 1700000000000 ≠ cancelMessage "ord-42" 1700000000000
           ∧ eip191Digest pairEnc (cancelMessage id' 1700000000000)
             ≠ eip191Digest pairEnc (cancelMessage "ord-42" 1700000000000))
       ∧ (∀ ts', ts' ≠ 1700000000000 →
           cancelMessage "ord-42" ts' ≠ cancelMessage "ord-42" 1700000000000
           ∧ eip191Digest pairEnc (cancelMessage "ord-42" ts')
             ≠ eip191Digest pairEnc (cancelMessage "ord-42" 1700000000000))) :=
  ⟨pairEnc_injective,
   C7_cancel_template_and_digest pairEnc C0 7 "ord-42" 1700000000000 pairEnc_injective⟩

/-- C4 (amended): `place_order.py` rejects every price ≤ 0 or ≥ 1 — including
0 and 1 — with the structured range error before computing any digest or
signature; the standalone `sign_order.py` tool performs no price range check:
an out-of-range price whose converted fields still fit their declared integer
types — price 0 in particular — produces a signed order instead of a
RangeError. -/
theorem C4_price_range_check (H : List Nat → Nat) (C : Crypto)
    (fromKey : String → Option Nat)
    (env agentEnv fileCfg remoteCfg preset : String → Option String)
    (args : PlaceArgs) (now_ms now_s : Nat) (cfg : LoadedCfg) (k : Nat)
    (hcfg : load_config env agentEnv fileCfg remoteCfg preset = .ok cfg)
    (hpk : cfg.PRIVATE_KEY ≠ "")
    (hk : fromKey cfg.PRIVATE_KEY = some k)
    (hp : (args.price.ble (Frac.ofInt 0) || (Frac.ofInt 1).ble args.price) = true) :
    place_order_main H C fromKey env agentEnv fileCfg remoteCfg preset args now_ms now_s
      = .jsonError "Price must be between 0 and 1 (exclusive)"
    ∧ (∀ (mid : Int) (side outc : String) (pr am : Frac) (onon oexp : Option Int),
        encodeBoundsOk mid (priceToBpsCode pr) (amountToRawCode am)
          (resolveOr onon now_ms) (resolveOr oexp ((now_s : Int) + 3600)) = true →
        (sign_order_main H C fromKey env agentEnv fileCfg remoteCfg preset
          ⟨some mid, some side, some outc, some pr, some am, onon, oexp⟩
          now_ms now_s).isSignedSuccess = true) := by
  constructor
  · simp [place_order_main, hcfg, require_private_key, hpk, hk, hp]
  · intro mid side outc pr am onon oexp hb
    simp [sign_order_main, hcfg, require_private_key, hpk, hk, hb,
      RunResult.isSignedSuccess]

/-- Witness for C4 at the concrete fixtures, with price 0. -/
theorem C4_witness :
    load_config env0 env0 env0 env0 preset0 = .ok cfg0
    ∧ cfg0.PRIVATE_KEY ≠ ""
    ∧ fk0 cfg0.PRIVATE_KEY = some 1
    ∧ (pargsPrice0.price.ble (Frac.ofInt 0) || (Frac.ofInt 1).ble pargsPrice0.price) = true
    ∧ encodeBoundsOk 1 (priceToBpsCode ⟨0, 1⟩) (amountToRawCode ⟨5, 1⟩)
        (resolveOr none 1700000000000) (resolveOr none ((1700000000 : Int) + 3600)) = true
    ∧ place_order_main H0 C0 fk0 env0 env0 env0 env0 preset0 pargsPrice0
          1700000000000 1700000000
        = .jsonError "Price must be between 0 and 1 (exclusive)"
    ∧ (sign_order_main H0 C0 fk0 env0 env0 env0 env0 preset0
        ⟨some 1, some "buy", some "yes", some ⟨0, 1⟩, some ⟨5, 1⟩, none, none⟩
        1700000000000 1700000000).isSignedSuccess = true := by
  have happ := C4_price_range_check H0 C0 fk0 env0 env0 env0 env0 preset0 pargsPrice0
    1700000000000 1700000000 cfg0 1 rfl (by decide) (by decide) (by decide)
  exact ⟨rfl, by decide, by decide, by decide, by decide, happ.1,
    happ.2 1 "buy" "yes" ⟨0, 1⟩ ⟨5, 1⟩ none none (by decide)⟩

/-- Counterexample to C4 as stated: with price 0 (which is ≤ 0) the
standalone signing tool does not fail with a RangeError — it produces a
signed order, digest and signature included. -/
theorem C4_counterexample :
    (sign_order_main H0 C0 fk0 env0 env0 env0 env0 preset0 argsPrice0
        1700000000000 1700000000).isSignedSuccess = true
    ∧ argsPrice0.price = some ⟨0, 1⟩ :=
  ⟨by decide, rfl⟩

/-- C5 (amended): the amount conversion is exact 10^6 scaling at integral
inputs (`amountToRaw(10) = 10_000_000`), and neither tool validates the
amount: amount 0 raises no RangeError and still yields a signed order (with
raw amount 0), while a negative amount crashes in the uint128 encoder with
`ValueOutOfBounds` — also not a RangeError. -/
theorem C5_amount_no_range_check (H : List Nat → Nat) (C : Crypto)
    (fromKey : String → Option Nat)
    (env agentEnv fileCfg remoteCfg preset : String → Option String)
    (pargs : PlaceArgs) (now_ms now_s : Nat) (cfg : LoadedCfg) (k : Nat)
    (hcfg : load_config env agentEnv fileCfg remoteCfg preset = .ok cfg)
    (hpk : cfg.PRIVATE_KEY ≠ "")
    (hk : fromKey cfg.PRIVATE_KEY = some k)
    (hpr : (pargs.price.ble (Frac.ofInt 0) || (Frac.ofInt 1).ble pargs.price) = false)
    (ham2 : pargs.amount.ble (Frac.ofInt 0) = true)
    (hbp : encodeBoundsOk pargs.market_id (priceToBpsCode pargs.price)
      (amountToRawCode pargs.amount) (resolveOr pargs.nonce now_ms)
      (resolveOr pargs.expiry ((now_s : Int) + 3600)) = true) :
    amountToRawCode (Frac.ofInt 10) = 10000000
    ∧ (∀ (mid : Int) (side outc : String) (pr am : Frac) (onon oexp : Option Int),
        am.ble (Frac.ofInt 0) = true →
        encodeBoundsOk mid (priceToBpsCode pr) (amountToRawCode am)
          (resolveOr onon now_ms) (resolveOr oexp ((now_s : Int) + 3600)) = true →
        (sign_order_main H C fromKey env agentEnv fileCfg remoteCfg preset
          ⟨some mid, some side, some outc, some pr, some am, onon, oexp⟩
          now_ms now_s).isSignedSuccess = true)
    ∧ (place_order_main H C fromKey env agentEnv fileCfg remoteCfg preset
        pargs now_ms now_s).isSignedSuccess = true
    ∧ (∀ (mid : Int) (side outc : String) (pr am : Frac) (onon oexp : Option Int),
        amountToRawCode am < 0 →
        sign_order_main H C fromKey env agentEnv fileCfg remoteCfg preset
          ⟨some mid, some side, some outc, some pr, some am, onon, oexp⟩ now_ms now_s
          = .rawCrash "eth_abi.exceptions.ValueOutOfBounds") := by
  refine ⟨by decide, ?_, ?_, ?_⟩
  · intro mid side outc pr am onon oexp _ hb
    simp [sign_order_main, hcfg, require_private_key, hpk, hk, hb,
      RunResult.isSignedSuccess]
  · simp [place_order_main, hcfg, require_private_key, hpk, hk, hpr, hbp,
      RunResult.isSignedSuccess]
  · intro mid side outc pr am onon oexp hneg
    have hb : encodeBoundsOk mid (priceToBpsCode pr) (amountToRawCode am)
        (resolveOr onon now_ms) (resolveOr oexp ((now_s : Int) + 3600)) = false := by
      simp only [encodeBoundsOk, decide_eq_false_iff_not]
      intro hcontra
      obtain ⟨_, _, _, _, hge, _⟩ := hcontra
      omega
    simp [sign_order_main, hcfg, require_private_key, hpk, hk, hb]

/-- Witness for C5 at the concrete fixtures: amount 0 signs, amount −3
crashes in the encoder. -/
theorem C5_witness :
    load_config env0 env0 env0 env0 preset0 = .ok cfg0
    ∧ cfg0.PRIVATE_KEY ≠ ""
    ∧ fk0 cfg0.PRIVATE_KEY = some 1
    ∧ (pargsAmount0.price.ble (Frac.ofInt 0) || (Frac.ofInt 1).ble pargsAmount0.price) = false
    ∧ pargsAmount0.amount.ble (Frac.ofInt 0) = true
    ∧ encodeBoundsOk pargsAmount0.market_id (priceToBpsCode pargsAmount0.price)
        (amountToRawCode pargsAmount0.amount) (resolveOr pargsAmount0.nonce 1700000000000)
        (resolveOr pargsAmount0.expiry ((1700000000 : Int) + 3600)) = true
    ∧ amountToRawCode (Frac.ofInt 10) = 10000000
    ∧ (sign_order_main H0 C0 fk0 env0 env0 env0 env0 preset0
        ⟨some 1, some "buy", some "yes", some ⟨1, 2⟩, some ⟨0, 1⟩, none, none⟩
        1700000000000 1700000000).isSignedSuccess = true
    ∧ (place_order_main H0 C0 fk0 env0 env0 env0 env0 preset0
        pargsAmount0 1700000000000 1700000000).isSignedSuccess = true
    ∧ sign_order_main H0 C0 fk0 env0 env0 env0 env0 preset0
        ⟨some 1, some "buy", some "yes", some ⟨1, 2⟩, some ⟨-3, 1⟩, none, none⟩
        1700000000000 1700000000 = .rawCrash "eth_abi.exceptions.ValueOutOfBounds" := by
  have happ := C5_amount_no_range_check H0 C0 fk0 env0 env0 env0 env0 preset0 pargsAmount0
    1700000000000 1700000000 cfg0 1 rfl (by decide) (by decide) (by decide) (by decide)
    (by decide)
  exact ⟨rfl, by decide, by decide, by decide, by decide, by decide, happ.1,
    happ.2.1 1 "buy" "yes" ⟨1, 2⟩ ⟨0, 1⟩ none none (by decide) (by decide),
    happ.2.2.1,
    happ.2.2.2 1 "buy" "yes" ⟨1, 2⟩ ⟨-3, 1⟩ none none (by decide)⟩

/-- Counterexample to C5 as stated: an amount of 0 (≤ 0) does not fail with a
RangeError — the order tool still produces a signed order. -/
theorem C5_counterexample :
    (place_order_main H0 C0 fk0 env0 env0 env0 env0 preset0 pargsAmount0
        1700000000000 1700000000).isSignedSuccess = true
    ∧ pargsAmount0.amount = ⟨0, 1⟩ :=
  ⟨by decide, rfl⟩

/-- C6 (amended): a caller-supplied nonzero nonce within the uint64 range
appears exactly in the signed order, and likewise a supplied expiry; with no
caller value the nonce defaults to `now_ms` and the expiry to `now_s + 3600`;
but a caller-supplied value of 0 is falsy for Python `or` and is silently
replaced by the default. -/
theorem C6_nonce_expiry_defaults (H : List Nat → Nat) (C : Crypto)
    (fromKey : String → Option Nat)
    (env agentEnv fileCfg remoteCfg preset : String → Option String)
    (mid : Int) (side outc : String) (pr am : Frac) (onon oexp : Option Int)
    (now_ms now_s : Nat) (cfg : LoadedCfg) (k : Nat)
    (hcfg : load_config env agentEnv fileCfg remoteCfg preset = .ok cfg)
    (hpk : cfg.PRIVATE_KEY ≠ "")
    (hk : fromKey cfg.PRIVATE_KEY = some k)
    (hb : encodeBoundsOk mid (priceToBpsCode pr) (amountToRawCode am)
      (resolveOr onon now_ms) (resolveOr oexp ((now_s : Int) + 3600)) = true) :
    let r := sign_order_main H C fromKey env agentEnv fileCfg remoteCfg preset
      ⟨some mid, some side, some outc, some pr, some am, onon, oexp⟩ now_ms now_s
    r.isSignedSuccess = true
    ∧ (∀ n : Int, onon = some n → n ≠ 0 → r.nonceOf = n.toNat ∧ (r.nonceOf : Int) = n)
    ∧ (onon = none → r.nonceOf = now_ms)
    ∧ (onon = some 0 → r.nonceOf = now_ms)
    ∧ (∀ n : Int, oexp = some n → n ≠ 0 → r.expiryOf = n.toNat ∧ (r.expiryOf : Int) = n)
    ∧ (oexp = none → r.expiryOf = now_s + 3600)
    ∧ (oexp = some 0 → r.expiryOf = now_s + 3600) := by
  intro r
  have hsucc : r.isSignedSuccess = true := by
    simp [r, sign_order_main, hcfg, require_private_key, hpk, hk, hb,
      RunResult.isSignedSuccess]
  have hnon : r.nonceOf = (resolveOr onon (now_ms : Int)).toNat := by
    simp [r, sign_order_main, hcfg, require_private_key, hpk, hk, hb,
      RunResult.nonceOf, sign_order]
  have hexp : r.expiryOf = (resolveOr oexp ((now_s : Int) + 3600)).toNat := by
    simp [r, sign_order_main, hcfg, require_private_key, hpk, hk, hb,
      RunResult.expiryOf, sign_order]
  have hbp : 0 ≤ resolveOr onon (now_ms : Int)
      ∧ 0 ≤ resolveOr oexp ((now_s : Int) + 3600) := by
    have hprop := hb
    simp only [encodeBoundsOk, decide_eq_true_eq] at hprop
    exact ⟨hprop.2.2.2.2.2.2.1, hprop.2.2.2.2.2.2.2.2.1⟩
  refine ⟨hsucc, ?_, ?_, ?_, ?_, ?_, ?_⟩
  · intro n hn hnz
    subst hn
    have hres : resolveOr (some n) (now_ms : Int) = n := by simp [resolveOr, hnz]
    have hge : 0 ≤ n := by rw [← hres]; exact hbp.1
    refine ⟨by rw [hnon, hres], ?_⟩
    rw [hnon, hres, Int.toNat_of_nonneg hge]
  · intro hn
    subst hn
    simp [hnon, resolveOr]
  · intro hn
    subst hn
    simp [hnon, resolveOr]
  · intro n hn hnz
    subst hn
    have hres : resolveOr (some n) ((now_s : Int) + 3600) = n := by simp [resolveOr, hnz]
    have hge : 0 ≤ n := by rw [← hres]; exact hbp.2
    refine ⟨by rw [hexp, hres], ?_⟩
    rw [hexp, hres, Int.toNat_of_nonneg hge]
  · intro hn
    subst hn
    simp [hexp, resolveOr]
    omega
  · intro hn
    subst hn
    simp [hexp, resolveOr]
    omega

/-- Witness for C6 with concrete supplied nonce 5 and expiry 0. -/
theorem C6_witness :
    load_config env0 env0 env0 env0 preset0 = .ok cfg0
    ∧ cfg0.PRIVATE_KEY ≠ ""
    ∧ fk0 cfg0.PRIVATE_KEY = some 1
    ∧ encodeBoundsOk 1 (priceToBpsCode ⟨1, 2⟩) (amountToRawCode ⟨5, 1⟩)
        (resolveOr (some 5) 1700000000000) (resolveOr (some 0) ((1700000000 : Int) + 3600)) = true
    ∧ (let r := sign_order_main H0 C0 fk0 env0 env0 env0 env0 preset0
         ⟨some 1, some "buy", some "yes", some ⟨1, 2⟩, some ⟨5, 1⟩, some 5, some 0⟩
         1700000000000 1700000000
       r.isSignedSuccess = true
       ∧ (∀ n : Int, (some 5 : Option Int) = some n → n ≠ 0 →
           r.nonceOf = n.toNat ∧ (r.nonceOf : Int) = n)
       ∧ ((some 5 : Option Int) = none → r.nonceOf = 1700000000000)
       ∧ ((some 5 : Option Int) = some 0 → r.nonceOf = 1700000000000)
       ∧ (∀ n : Int, (some 0 : Option Int) = some n → n ≠ 0 →
           r.expiryOf = n.toNat ∧ (r.expiryOf : Int) = n)
       ∧ ((some 0 : Option Int) = none → r.expiryOf = 1700000000 + 3600)
       ∧ ((some 0 : Option Int) = some 0 → r.expiryOf = 1700000000 + 3600)) :=
  ⟨rfl, by decide, by decide, by decide,
   C6_nonce_expiry_defaults H0 C0 fk0 env0 env0 env0 env0 preset0
     1 "buy" "yes" ⟨1, 2⟩ ⟨5, 1⟩ (some 5) (some 0) 1700000000000 1700000000 cfg0 1
     rfl (by decide) (by decide) (by decide)⟩

/-- Counterexample to C6 as stated: the caller supplies `--nonce 0`, yet the
signed order carries the timestamp default, not the supplied value. -/
theorem C6_counterexample :
    (sign_order_main H0 C0 fk0 env0 env0 env0 env0 preset0 argsNonce0
        1700000000000 1700000000).nonceOf = 1700000000000
    ∧ argsNonce0.nonce = some 0
    ∧ (1700000000000 : Nat) ≠ 0 :=
  ⟨by decide, rfl, by decide⟩

/-- C9 (amended): a missing private key and missing order arguments surface as
the structured `{"success": false, "error": ...}` result with exit code 1, but
a `CHAIN_ID` that does not parse as an integer (e.g. set to the empty string)
raises an uncaught `ValueError` inside `load_config` — a raw crash with no
JSON output. -/
theorem C9_failure_modes (H : List Nat → Nat) (C : Crypto)
    (fromKey : String → Option Nat)
    (env agentEnv fileCfg remoteCfg preset : String → Option String)
    (args : SignArgs) (now_ms now_s : Nat) :
    (pyIntParse (cfgGet env agentEnv fileCfg remoteCfg preset "CHAIN_ID" "") = none →
      sign_order_main H C fromKey env agentEnv fileCfg remoteCfg preset args now_ms now_s
        = .rawCrash "ValueError: invalid literal for int() with base 10")
    ∧ (∀ cfg : LoadedCfg, load_config env agentEnv fileCfg remoteCfg preset = .ok cfg →
        cfg.PRIVATE_KEY = "" →
        sign_order_main H C fromKey env agentEnv fileCfg remoteCfg preset args now_ms now_s
          = .jsonError "PRIVATE_KEY not set. Export it or add to config.json")
    ∧ (∀ (cfg : LoadedCfg) (k : Nat),
        load_config env agentEnv fileCfg remoteCfg preset = .ok cfg →
        cfg.PRIVATE_KEY ≠ "" → fromKey cfg.PRIVATE_KEY = some k → args.price = none →
        sign_order_main H C fromKey env agentEnv fileCfg remoteCfg preset args now_ms now_s
          = .jsonError
              "Order signing requires: --market-id, --side, --outcome, --price, --amount") := by
  refine ⟨?_, ?_, ?_⟩
  · intro h
    simp [sign_order_main, load_config, h]
  · intro cfg hcfg hempty
    simp [sign_order_main, hcfg, require_private_key, hempty]
  · intro cfg k hcfg hpk hk hprice
    simp [sign_order_main, hcfg, require_private_key, hpk, hk, hprice]

/-- Witness for C9: the three failure modes at concrete configurations. -/
theorem C9_witness :
    sign_order_main H0 C0 fk0 envBad env0 env0 env0 preset0 argsNoPrice
        1700000000000 1700000000
      = .rawCrash "ValueError: invalid literal for int() with base 10"
    ∧ sign_order_main H0 C0 fk0 env0 env0 env0 env0 presetNoPk argsPrice0
        1700000000000 1700000000
      = .jsonError "PRIVATE_KEY not set. Export it or add to config.json"
    ∧ sign_order_main H0 C0 fk0 env0 env0 env0 env0 preset0 argsNoPrice
        1700000000000 1700000000
      = .jsonError
          "Order signing requires: --market-id, --side, --outcome, --price, --amount" :=
  ⟨(C9_failure_modes H0 C0 fk0 envBad env0 env0 env0 preset0 argsNoPrice
      1700000000000 1700000000).1 (by decide),
   (C9_failure_modes H0 C0 fk0 env0 env0 env0 env0 presetNoPk argsPrice0
      1700000000000 1700000000).2.1 ⟨"", 10143, "0xC628e81B506b572391669339c2AbaCFafa0d95dD"⟩
      rfl (by decide),
   (C9_failure_modes H0 C0 fk0 env0 env0 env0 env0 preset0 argsNoPrice
      1700000000000 1700000000).2.2 cfg0 1 rfl (by decide) (by decide) rfl⟩

/-- Counterexample to C9 as stated: with the environment variable `CHAIN_ID`
set to the empty string — an unresolved domain configuration — the tool does
not emit a structured JSON error; it crashes with an uncaught `ValueError`. -/
theorem C9_counterexample :
    sign_order_main H0 C0 fk0 envBad env0 env0 env0 preset0 argsPrice0
        1700000000000 1700000000
      = .rawCrash "ValueError: invalid literal for int() with base 10" := by
  decide

end TradingAgent
